import Mathlib

/-!
Shallow embedding of the target-selection and camera-pointing core of
`skyscan-c2/c2_pub_sub.py` (class `C2PubSub`).

Modelling conventions:
* Python floats are modelled as rationals (`ℚ`); the external numeric
  library calls (`axis_ptz_utilities.compute_r_XYZ`, matrix products,
  `math.sin`/`cos`/`asin`/`sqrt`/`atan2`) are parameters collected in a
  `GeoExt` record, with `Except Unit` results where the source wraps the
  computation in a `try` block.
* An object record is a dictionary: an identifier (the DataFrame index
  label) plus a list of named numeric fields.  A field access performed
  by the callback on a missing key raises `KeyError` in the source; the
  outer handler at the end of `_target_selection_callback` catches it and
  abandons the cycle, which the model renders as `Option`/early return
  with no outputs.  (Partially missing columns in a multi-record frame,
  which pandas fills with NaN floats, are outside the rational model;
  the model is exact for single-record batches and for batches whose
  records carry uniform keys.)
* pandas `sort_values(...).iloc[0]` does not document tie order; the
  model resolves ties by first occurrence.
-/

/-- A 3-vector in the topocentric East-North-Up frame. -/
abbrev Vec3 : Type := ℚ × ℚ × ℚ

/-- External numeric primitives used by `_calculate_camera_angles` and
`_relative_distance_meters`: geodetic-to-ENz position (composition of
`compute_r_XYZ`, tripod subtraction and the `E_XYZ_to_ENz` product),
degree-to-radian conversion, trigonometric functions, and the pan/tilt/
distance extraction applied to the predicted ENz vector (composition of
the transpose product, the `E_XYZ_to_uvw` product, `atan2` and `norm`).
The `Except Unit` codomains model the exceptions caught by the source's
`try`/`except` around the whole computation. -/
structure GeoExt where
  computeRENz : ℚ → ℚ → ℚ → Except Unit Vec3
  rad : ℚ → ℚ
  sinq : ℚ → ℚ
  cosq : ℚ → ℚ
  asinq : ℚ → ℚ
  sqrtq : ℚ → ℚ
  anglesOf : Vec3 → Except Unit (ℚ × ℚ × ℚ)

/-- One point of the occlusion mapping loaded from `mapping_filepath`. -/
structure OccPoint where
  azimuth : ℚ
  elevation : ℚ
deriving DecidableEq, Repr

/-- Configuration snapshot of the `C2PubSub` attributes read during one
evaluation: tilt and altitude bounds, distance thresholds, lead time,
device coordinates, Earth radius, and the optional occlusion mapping
(`none` models `occlusion_mapping_enabled == False`). -/
structure C2Config where
  min_tilt : ℚ
  max_tilt : ℚ
  min_altitude : ℚ
  max_altitude : ℚ
  object_distance_threshold : ℚ
  distance_improvement_threshold : ℚ
  lead_time : ℚ
  device_latitude : ℚ
  device_longitude : ℚ
  earth_radius_km : ℚ
  occlusion : Option (List OccPoint)
deriving Repr

/-- One row of the object ledger: index label (`id`) plus named numeric
fields, mirroring `x.to_dict()` for a DataFrame row. -/
structure Record where
  id : String
  fields : List (String × ℚ)
deriving DecidableEq, Repr

/-- Dictionary lookup on a record's fields. -/
def Record.get? (r : Record) (k : String) : Option ℚ :=
  (r.fields.find? (fun p => p.1 = k)).map (fun p => p.2)

/-- `k in data.keys()` for one key. -/
def Record.hasKey (r : Record) (k : String) : Bool :=
  (r.get? k).isSome

/-- `set(ks) <= set(data.keys())`. -/
def Record.hasAll (r : Record) (ks : List String) : Bool :=
  ks.all (fun k => r.hasKey k)

/-- The required keys checked at the top of `_calculate_camera_angles`. -/
def requiredGeometryKeys : List String :=
  ["timestamp", "latitude", "longitude", "altitude", "track",
   "horizontal_velocity", "vertical_velocity"]

/-- `lead_time += object_msg_age` with `object_msg_age = time() - timestamp_o`. -/
def effectiveLeadTime (leadTime now ts : ℚ) : ℚ :=
  leadTime + (now - ts)

/-- The ENz velocity vector `v_ENz_o_0_t` built from ground speed, track
(converted to radians) and vertical rate. -/
def velocityENz (ext : GeoExt) (speed track vrate : ℚ) : Vec3 :=
  (speed * ext.sinq (ext.rad track), speed * ext.cosq (ext.rad track), vrate)

/-- `r_ENz_o_1_t = r_ENz_o_0_t + v_ENz_o_0_t * lead_time`. -/
def predictENz (r0 v : Vec3) (t : ℚ) : Vec3 :=
  (r0.1 + v.1 * t, r0.2.1 + v.2.1 * t, r0.2.2 + v.2.2 * t)

/-- The body of the `try` block of `_calculate_camera_angles`: geodetic
to relative ENz position, message-age-compensated lead time, linear
extrapolation, then pan/tilt/distance extraction.  `Except.error` is the
raising path caught by the `except` clause.  Under the caller's key
guard every `getD 0` default is unreachable. -/
def calcTry (ext : GeoExt) (now leadTime : ℚ) (data : Record) :
    Except Unit (ℚ × ℚ × ℚ) :=
  let ts := (data.get? "timestamp").getD 0
  let lon := (data.get? "longitude").getD 0
  let lat := (data.get? "latitude").getD 0
  let alt := (data.get? "altitude").getD 0
  let track := (data.get? "track").getD 0
  let speed := (data.get? "horizontal_velocity").getD 0
  let vrate := (data.get? "vertical_velocity").getD 0
  match ext.computeRENz lon lat alt with
  | Except.error e => Except.error e
  | Except.ok r0 =>
    ext.anglesOf
      (predictENz r0 (velocityENz ext speed track vrate)
        (effectiveLeadTime leadTime now ts))

/-- `_calculate_camera_angles`: returns `(rho_o, tau_o, distance3d)`, or
`(0, 0, 0)` when a required key is missing or the wrapped computation
raises. -/
def calculateCameraAngles (ext : GeoExt) (now leadTime : ℚ) (data : Record) :
    ℚ × ℚ × ℚ :=
  if data.hasAll requiredGeometryKeys then
    match calcTry ext now leadTime data with
    | Except.error _ => (0, 0, 0)
    | Except.ok out => out
  else (0, 0, 0)

/-- `_relative_distance_meters` (haversine over a spherical Earth). -/
def relative_distance_meters (ext : GeoExt) (earthRadiusKm : ℚ)
    (lat1 lon1 lat2 lon2 : ℚ) : ℚ :=
  let la1 := ext.rad lat1
  let lo1 := ext.rad lon1
  let la2 := ext.rad lat2
  let lo2 := ext.rad lon2
  2 * ext.asinq (ext.sqrtq
      (ext.sinq ((la2 - la1) / 2) ^ 2
        + ext.cosq la1 * ext.cosq la2 * ext.sinq ((lo2 - lo1) / 2) ^ 2))
    * earthRadiusKm * 1000

/-- The linear scan of `_elevation_check` over the occlusion mapping: the
body fires at the first point whose azimuth exceeds the camera pan, or
unconditionally at the last point, and returns
`max_tilt > elevation > point.elevation`; `none` only for an empty list. -/
def occScan (maxTilt azimuth elevation : ℚ) : List OccPoint → Option Bool
  | [] => none
  | p :: rest =>
    if p.azimuth > azimuth ∨ rest = [] then
      some (decide (elevation < maxTilt) && decide (p.elevation < elevation))
    else occScan maxTilt azimuth elevation rest

/-- The occlusion-mapping point the scan settles on: first point with
azimuth greater than the camera pan, otherwise the last point. -/
def occApplicable (azimuth : ℚ) : List OccPoint → Option OccPoint
  | [] => none
  | p :: rest =>
    if p.azimuth > azimuth ∨ rest = [] then some p
    else occApplicable azimuth rest

/-- `_elevation_check`: with occlusion mapping enabled the scan decides;
the trailing `min_tilt > elevation` branch is reachable only for an empty
mapping.  Without occlusion mapping, an inclusive range check. -/
def elevation_check (cfg : C2Config) (azimuth elevation : ℚ) : Bool :=
  match cfg.occlusion with
  | some pts =>
    match occScan cfg.max_tilt azimuth elevation pts with
    | some b => b
    | none => decide (cfg.min_tilt > elevation)
  | none => decide (cfg.min_tilt ≤ elevation) && decide (elevation ≤ cfg.max_tilt)

/-- One row of the annotated ledger: the input record plus the columns
appended by `_target_selection_callback` (lines assigning `age`,
`target`, `selectable`, `camera_pan`, `camera_tilt`, `distance_3d`,
`relative_distance`, `tilt_fail`, `min_altitude_fail`,
`max_altitude_fail`). -/
structure AnnRecord where
  record : Record
  age : ℚ
  target : Bool
  selectable : Bool
  camera_pan : ℚ
  camera_tilt : ℚ
  distance_3d : ℚ
  relative_distance : ℚ
  tilt_fail : Bool
  min_altitude_fail : Bool
  max_altitude_fail : Bool
deriving DecidableEq, Repr

/-- The per-record columns `_target_selection_callback` appends to the
ledger before selection, in assignment order. -/
def appendedColumns : List String :=
  ["age", "target", "selectable", "camera_pan", "camera_tilt",
   "distance_3d", "relative_distance", "tilt_fail", "min_altitude_fail",
   "max_altitude_fail"]

/-- Keys the batch-level column operations and per-record applies read
directly from each row (`timestamp` for `age`, `latitude`/`longitude`
for `relative_distance`, `altitude` for the altitude gates); a missing
key raises `KeyError`, caught by the callback's outer handler. -/
def batchKeys : List String :=
  ["timestamp", "latitude", "longitude", "altitude"]

/-- Annotation of a single ledger row with the appended columns; `none`
models the `KeyError` raised when a batch-level access misses a key. -/
def annotateRecord (ext : GeoExt) (cfg : C2Config) (now : ℚ) (r : Record) :
    Option AnnRecord :=
  if r.hasAll batchKeys then
    let ts := (r.get? "timestamp").getD 0
    let lat := (r.get? "latitude").getD 0
    let lon := (r.get? "longitude").getD 0
    let alt := (r.get? "altitude").getD 0
    let angles := calculateCameraAngles ext now cfg.lead_time r
    some
      { record := r
        age := now - ts
        target := false
        selectable := false
        camera_pan := angles.1
        camera_tilt := angles.2.1
        distance_3d := angles.2.2
        relative_distance :=
          relative_distance_meters ext cfg.earth_radius_km
            cfg.device_latitude cfg.device_longitude lat lon
        tilt_fail := ! elevation_check cfg angles.1 angles.2.1
        min_altitude_fail := decide (alt < cfg.min_altitude)
        max_altitude_fail := decide (alt > cfg.max_altitude) }
  else none

/-- Row-by-row annotation of the whole ledger; any row whose batch-level
access raises abandons the cycle (`none`). -/
def annotateBatch (ext : GeoExt) (cfg : C2Config) (now : ℚ) :
    List Record → Option (List AnnRecord)
  | [] => some []
  | r :: rest =>
    match annotateRecord ext cfg now r, annotateBatch ext cfg now rest with
    | some a, some tail => some (a :: tail)
    | _, _ => none

/-- Mutable selection state of `C2PubSub`: `override_object` and
`tracked_object` (the stored pandas Series, of which later cycles read
only the index label `name`). -/
structure C2State where
  override_object : Option String
  tracked_object : Option AnnRecord
deriving DecidableEq, Repr

/-- Python truthiness of `self.override_object` (`None` and the empty
string are falsy). -/
def isTruthy : Option String → Bool
  | none => false
  | some s => ! decide (s = "")

/-- `sort_values(by=key, ascending=True).iloc[0]` on a non-empty frame:
the row with minimal key, first occurrence on ties. -/
def pickMinBy {α : Type} (f : α → ℚ) : List α → Option α
  | [] => none
  | x :: xs => some (xs.foldl (fun b a => if f a < f b then a else b) x)

/-- The filtered `target_ledger_df`: rows within the distance threshold
whose three stored gate flags are all `False`, with `selectable` set to
`True` on the filtered copy. -/
def eligibleOf (cfg : C2Config) (ann : List AnnRecord) : List AnnRecord :=
  (ann.filter (fun a =>
      decide (a.relative_distance ≤ cfg.object_distance_threshold)
        && (a.tilt_fail == false)
        && (a.min_altitude_fail == false)
        && (a.max_altitude_fail == false))).map
    (fun a => { a with selectable := true })

/-- The selection block of `_target_selection_callback` (override branch
and standard branch with hysteresis), acting on the annotated ledger. -/
def selectTarget (cfg : C2Config) (s : C2State) (ann : List AnnRecord) :
    C2State :=
  if isTruthy s.override_object then
    let oid := s.override_object.getD ""
    let sel := ann.filter (fun a => decide (a.record.id = oid))
    match pickMinBy (fun a => a.age) sel with
    | some t => { s with tracked_object := some t }
    | none => { override_object := none, tracked_object := none }
  else
    let eligible := eligibleOf cfg ann
    match pickMinBy (fun a => a.relative_distance) eligible with
    | none => { s with tracked_object := none }
    | some p0 =>
      let potential := { p0 with target := true }
      match s.tracked_object with
      | some tr =>
        match (eligible.filter (fun a => decide (a.record.id = tr.record.id))).head? with
        | some current =>
          if (current.relative_distance - potential.relative_distance)
              / current.relative_distance > cfg.distance_improvement_threshold
          then { s with tracked_object := some potential }
          else { s with tracked_object := some current }
        | none => { s with tracked_object := some potential }
      | none => { s with tracked_object := some potential }

/-- Keys the selected-object payload reads directly from the tracked row
(the `.get(...)`-defaulted FAA keys never raise and are omitted). -/
def payloadKeys : List String :=
  ["object_type", "timestamp", "latitude", "longitude", "altitude",
   "track", "horizontal_velocity", "vertical_velocity", "flight",
   "squawk", "category", "emergency"]

/-- The messages the callback publishes during one cycle. -/
inductive C2Out where
  | selectedTarget (id : String)
  | emptySelection
  | annotatedLedger (rows : List AnnRecord)
deriving DecidableEq, Repr

/-- The `ObjectLedger` branch of `_target_selection_callback`: skip an
empty frame entirely; annotate; select; publish the selected object (or
an empty selection) and then the prioritized (annotated) ledger.  A
`KeyError` during annotation or payload building is caught by the outer
handler, abandoning the remaining publishes while keeping state updates
already made. -/
def ledgerStep (ext : GeoExt) (cfg : C2Config) (now : ℚ) (s : C2State)
    (recs : List Record) : C2State × List C2Out :=
  if recs.isEmpty then (s, [])
  else
    match annotateBatch ext cfg now recs with
    | none => (s, [])
    | some ann =>
      let s1 := selectTarget cfg s ann
      match s1.tracked_object with
      | some t =>
        if t.record.hasAll payloadKeys then
          (s1, [C2Out.selectedTarget t.record.id, C2Out.annotatedLedger ann])
        else (s1, [])
      | none => (s1, [C2Out.emptySelection, C2Out.annotatedLedger ann])

/-- One incoming message: optional `ObjectLedger` and optional
`ObjectIDOverride` keys of the payload dictionary. -/
structure C2Msg where
  objectLedger : Option (List Record)
  objectIDOverride : Option String

/-- `_target_selection_callback`: the ledger branch runs first (with the
pre-existing override state); the `ObjectIDOverride` assignment follows
after the `try`/`except` block. -/
def processMessage (ext : GeoExt) (cfg : C2Config) (now : ℚ) (s : C2State)
    (m : C2Msg) : C2State × List C2Out :=
  let r :=
    match m.objectLedger with
    | some recs => ledgerStep ext cfg now s recs
    | none => (s, [])
  match m.objectIDOverride with
  | some o => ({ r.1 with override_object := some o }, r.2)
  | none => r

unseal Rat.add Rat.sub Rat.mul Rat.inv

/-! ### Concrete instances used for closed evaluations -/

/-- The boolean gate-flag columns appended per record by
`_target_selection_callback`: the pointing-angle flag (`tilt_fail`) and
the two altitude flags.  The distance-threshold comparison is evaluated
only inside the selection filter and is not stored as a column. -/
def gateFlagColumns : List String :=
  ["tilt_fail", "min_altitude_fail", "max_altitude_fail"]

/-- A concrete external-geometry instance: the ENz position of a record
is `(0, 0, altitude)`, trigonometric primitives are simple total maps,
and `anglesOf` returns the predicted vector componentwise. -/
def extK : GeoExt where
  computeRENz := fun _ _ alt => Except.ok (0, 0, alt)
  rad := fun x => x
  sinq := fun x => x
  cosq := fun _ => 0
  asinq := fun x => x
  sqrtq := fun x => x
  anglesOf := fun v => Except.ok (v.1, v.2.1, v.2.2)

/-- A concrete configuration with wide gates, no occlusion mapping, and
an Earth radius chosen so that `relative_distance_meters extK` of a
record at latitude `x` (device at the origin) is `x ^ 2`. -/
def cfgK : C2Config where
  min_tilt := -90
  max_tilt := 90
  min_altitude := 0
  max_altitude := 100000
  object_distance_threshold := 1000
  distance_improvement_threshold := 1 / 10
  lead_time := 1
  device_latitude := 0
  device_longitude := 0
  earth_radius_km := 1 / 500
  occlusion := none

/-- A fully-populated ledger record at a given latitude and altitude. -/
def mkRec (id : String) (lat alt : ℚ) : Record :=
  ⟨id, [("timestamp", 100), ("latitude", lat), ("longitude", 0),
        ("altitude", alt), ("track", 0), ("horizontal_velocity", 0),
        ("vertical_velocity", 0), ("object_type", 0), ("flight", 0),
        ("squawk", 0), ("category", 0), ("emergency", 0)]⟩

/-- `cfgK` with a one-point occlusion mapping and a positive minimum
tilt. -/
def cfgOcc4 : C2Config :=
  { cfgK with min_tilt := 10, max_tilt := 80,
              occlusion := some [OccPoint.mk 360 0] }

/-- `cfgK` with a one-point occlusion mapping and a maximum tilt of 45. -/
def cfgOcc6 : C2Config :=
  { cfgK with min_tilt := 0, max_tilt := 45,
              occlusion := some [OccPoint.mk 360 0] }

/-- A previously tracked row whose index label is `"B"`. -/
def trackedB : AnnRecord where
  record := mkRec "B" 2 500
  age := 0
  target := false
  selectable := false
  camera_pan := 0
  camera_tilt := 0
  distance_3d := 500
  relative_distance := 4
  tilt_fail := false
  min_altitude_fail := false
  max_altitude_fail := false

/-- Two eligible records at ground distances 1 and 4. -/
def recsW3 : List Record := [mkRec "A" 1 500, mkRec "B" 2 500]

/-- A record whose fix timestamp lies in the future of the evaluation
time 100, with nonzero speed, track and vertical rate. -/
def rW7 : Record :=
  ⟨"A", [("timestamp", 105), ("latitude", 1), ("longitude", 0),
         ("altitude", 500), ("track", 3), ("horizontal_velocity", 2),
         ("vertical_velocity", 5)]⟩

/-- A record missing `latitude` (and the velocity fields). -/
def rNoLat : Record :=
  ⟨"A", [("timestamp", 100), ("longitude", 0), ("altitude", 500),
         ("track", 0), ("horizontal_velocity", 0), ("vertical_velocity", 0)]⟩

/-- A record carrying the batch-level keys but missing `track` and the
velocity fields. -/
def rW8 : Record :=
  ⟨"A", [("timestamp", 100), ("latitude", 1), ("longitude", 0),
         ("altitude", 500)]⟩

/-! ### Helper lemmas -/

theorem foldlMin_mem {α : Type} (f : α → ℚ) (xs : List α) (x : α) :
    xs.foldl (fun b a => if f a < f b then a else b) x ∈ x :: xs := by
  induction xs generalizing x with
  | nil => simp
  | cons y ys ih =>
    have h := ih (if f y < f x then y else x)
    rcases List.mem_cons.mp h with h1 | h1
    · simp only [List.foldl_cons]
      rw [h1]
      split
      · simp
      · simp
    · simp only [List.foldl_cons]
      simp [h1]

theorem pickMinBy_mem {α : Type} (f : α → ℚ) (l : List α) (x : α)
    (h : pickMinBy f l = some x) : x ∈ l := by
  cases l with
  | nil => simp [pickMinBy] at h
  | cons y ys =>
    simp only [pickMinBy, Option.some.injEq] at h
    rw [← h]
    exact foldlMin_mem f ys y

theorem annotateBatch_mem_fwd (ext : GeoExt) (cfg : C2Config) (now : ℚ)
    (recs : List Record) (ann : List AnnRecord) (r : Record)
    (hann : annotateBatch ext cfg now recs = some ann) (hr : r ∈ recs) :
    ∃ a ∈ ann, annotateRecord ext cfg now r = some a := by
  induction recs generalizing ann with
  | nil => simp at hr
  | cons q qs ih =>
    unfold annotateBatch at hann
    cases hq : annotateRecord ext cfg now q with
    | none => rw [hq] at hann; simp at hann
    | some a0 =>
      cases hqs : annotateBatch ext cfg now qs with
      | none => rw [hq, hqs] at hann; simp at hann
      | some tail =>
        rw [hq, hqs] at hann
        simp only [Option.some.injEq] at hann
        rcases List.mem_cons.mp hr with h1 | h1
        · exact ⟨a0, by rw [← hann]; exact List.mem_cons_self a0 tail, by rw [h1]; exact hq⟩
        · rcases ih tail hqs h1 with ⟨a, ha, hfa⟩
          exact ⟨a, by rw [← hann]; exact List.mem_cons_of_mem a0 ha, hfa⟩

theorem annotateBatch_mem_rev (ext : GeoExt) (cfg : C2Config) (now : ℚ)
    (recs : List Record) (ann : List AnnRecord) (a : AnnRecord)
    (hann : annotateBatch ext cfg now recs = some ann) (ha : a ∈ ann) :
    ∃ r ∈ recs, annotateRecord ext cfg now r = some a := by
  induction recs generalizing ann with
  | nil =>
    unfold annotateBatch at hann
    simp only [Option.some.injEq] at hann
    rw [← hann] at ha
    simp at ha
  | cons q qs ih =>
    unfold annotateBatch at hann
    cases hq : annotateRecord ext cfg now q with
    | none => rw [hq] at hann; simp at hann
    | some a0 =>
      cases hqs : annotateBatch ext cfg now qs with
      | none => rw [hq, hqs] at hann; simp at hann
      | some tail =>
        rw [hq, hqs] at hann
        simp only [Option.some.injEq] at hann
        rw [← hann] at ha
        rcases List.mem_cons.mp ha with h1 | h1
        · exact ⟨q, List.mem_cons_self q qs, by rw [h1]; exact hq⟩
        · rcases ih tail hqs h1 with ⟨r, hrmem, hra⟩
          exact ⟨r, List.mem_cons_of_mem q hrmem, hra⟩

theorem annotateBatch_length (ext : GeoExt) (cfg : C2Config) (now : ℚ)
    (recs : List Record) (ann : List AnnRecord)
    (hann : annotateBatch ext cfg now recs = some ann) :
    ann.length = recs.length := by
  induction recs generalizing ann with
  | nil =>
    unfold annotateBatch at hann
    simp only [Option.some.injEq] at hann
    rw [← hann]
    rfl
  | cons q qs ih =>
    unfold annotateBatch at hann
    cases hq : annotateRecord ext cfg now q with
    | none => rw [hq] at hann; simp at hann
    | some a0 =>
      cases hqs : annotateBatch ext cfg now qs with
      | none => rw [hq, hqs] at hann; simp at hann
      | some tail =>
        rw [hq, hqs] at hann
        simp only [Option.some.injEq] at hann
        rw [← hann]
        simp [ih tail hqs]

theorem annotateRecord_spec (ext : GeoExt) (cfg : C2Config) (now : ℚ)
    (r : Record) (a : AnnRecord)
    (h : annotateRecord ext cfg now r = some a) :
    a.record = r
    ∧ a.age = now - (r.get? "timestamp").getD 0
    ∧ a.camera_pan = (calculateCameraAngles ext now cfg.lead_time r).1
    ∧ a.camera_tilt = (calculateCameraAngles ext now cfg.lead_time r).2.1
    ∧ a.distance_3d = (calculateCameraAngles ext now cfg.lead_time r).2.2
    ∧ a.relative_distance = relative_distance_meters ext cfg.earth_radius_km
        cfg.device_latitude cfg.device_longitude
        ((r.get? "latitude").getD 0) ((r.get? "longitude").getD 0)
    ∧ a.tilt_fail = ! elevation_check cfg a.camera_pan a.camera_tilt
    ∧ a.min_altitude_fail = decide ((r.get? "altitude").getD 0 < cfg.min_altitude)
    ∧ a.max_altitude_fail = decide ((r.get? "altitude").getD 0 > cfg.max_altitude) := by
  unfold annotateRecord at h
  split at h
  · simp only [Option.some.injEq] at h
    subst h
    exact ⟨rfl, rfl, rfl, rfl, rfl, rfl, rfl, rfl, rfl⟩
  · simp at h

theorem annotateRecord_record (ext : GeoExt) (cfg : C2Config) (now : ℚ)
    (r : Record) (a : AnnRecord)
    (h : annotateRecord ext cfg now r = some a) : a.record = r :=
  (annotateRecord_spec ext cfg now r a h).1

theorem eligibleOf_record (cfg : C2Config) (ann : List AnnRecord) (x : AnnRecord)
    (hx : x ∈ eligibleOf cfg ann) :
    ∃ a ∈ ann, x.record = a.record := by
  unfold eligibleOf at hx
  rcases List.mem_map.mp hx with ⟨a, ha, hax⟩
  exact ⟨a, (List.mem_filter.mp ha).1, by rw [← hax]⟩

theorem selectTarget_mem (cfg : C2Config) (s : C2State) (ann : List AnnRecord)
    (t : AnnRecord)
    (h : (selectTarget cfg s ann).tracked_object = some t) :
    ∃ a ∈ ann, t.record = a.record := by
  unfold selectTarget at h
  simp only [] at h
  split at h
  · -- override branch
    split at h
    · rename_i u hp
      simp only [Option.some.injEq] at h
      have hu := pickMinBy_mem _ _ _ hp
      exact ⟨u, (List.mem_filter.mp hu).1, by rw [← h]⟩
    · simp at h
  · -- standard branch
    split at h
    · simp at h
    · rename_i p0 hp
      have hp0 := pickMinBy_mem _ _ _ hp
      rcases eligibleOf_record cfg ann p0 hp0 with ⟨ap, hap, hrecp⟩
      split at h
      · rename_i tr htr
        split at h
        · rename_i current hc
          have hcur : current ∈ eligibleOf cfg ann :=
            (List.mem_filter.mp (List.mem_of_mem_head? hc)).1
          rcases eligibleOf_record cfg ann current hcur with ⟨ac, hac, hrecc⟩
          split at h
          · simp only [Option.some.injEq] at h
            exact ⟨ap, hap, by rw [← h]; exact hrecp⟩
          · simp only [Option.some.injEq] at h
            exact ⟨ac, hac, by rw [← h]; exact hrecc⟩
        · simp only [Option.some.injEq] at h
          exact ⟨ap, hap, by rw [← h]; exact hrecp⟩
      · simp only [Option.some.injEq] at h
        exact ⟨ap, hap, by rw [← h]; exact hrecp⟩

theorem ledgerStep_eq (ext : GeoExt) (cfg : C2Config) (now : ℚ) (s : C2State)
    (recs : List Record) (ann : List AnnRecord)
    (hne : recs ≠ []) (hann : annotateBatch ext cfg now recs = some ann) :
    ledgerStep ext cfg now s recs =
      (match (selectTarget cfg s ann).tracked_object with
       | some t =>
         if t.record.hasAll payloadKeys then
           (selectTarget cfg s ann,
            [C2Out.selectedTarget t.record.id, C2Out.annotatedLedger ann])
         else (selectTarget cfg s ann, [])
       | none =>
         (selectTarget cfg s ann,
          [C2Out.emptySelection, C2Out.annotatedLedger ann])) := by
  cases recs with
  | nil => exact absurd rfl hne
  | cons r rs =>
    unfold ledgerStep
    rw [hann]
    rfl

theorem ledgerStep_state (ext : GeoExt) (cfg : C2Config) (now : ℚ) (s : C2State)
    (recs : List Record) (ann : List AnnRecord)
    (hne : recs ≠ []) (hann : annotateBatch ext cfg now recs = some ann) :
    (ledgerStep ext cfg now s recs).1 = selectTarget cfg s ann := by
  rw [ledgerStep_eq ext cfg now s recs ann hne hann]
  cases (selectTarget cfg s ann).tracked_object with
  | none => rfl
  | some t =>
    simp only
    split <;> rfl

theorem occScan_applicable (maxTilt az el : ℚ) (pts : List OccPoint) (p : OccPoint)
    (h : occApplicable az pts = some p) :
    occScan maxTilt az el pts
      = some (decide (el < maxTilt) && decide (p.elevation < el)) := by
  induction pts with
  | nil => simp [occApplicable] at h
  | cons q qs ih =>
    unfold occApplicable at h
    unfold occScan
    by_cases hcond : q.azimuth > az ∨ qs = []
    · rw [if_pos hcond] at h
      rw [if_pos hcond]
      simp only [Option.some.injEq] at h
      rw [← h]
    · rw [if_neg hcond] at h
      rw [if_neg hcond]
      exact ih h


/-! ### Claims -/

/-- C4 counterexample: with the non-empty occlusion profile of `cfgOcc4`
(minimum tilt 10), a camera elevation of 5 — strictly below the minimum
tilt — passes the pointing-angle gate, because the occlusion branch of
`_elevation_check` never consults `min_tilt`.  The claim says it must
fail regardless of the applicable profile entry. -/
theorem C4_counterexample :
    (5 : ℚ) < cfgOcc4.min_tilt
    ∧ cfgOcc4.occlusion = some [OccPoint.mk 360 0]
    ∧ elevation_check cfgOcc4 0 5 = true := by decide

/-- C4 (amended): with a non-empty occlusion profile, the pointing-angle
gate ignores the configured minimum tilt entirely: it passes exactly when
the camera elevation is strictly below the maximum tilt and strictly
above the applicable profile entry's occlusion elevation. -/
theorem C4_occlusion_gate (cfg : C2Config) (pts : List OccPoint) (az el : ℚ)
    (p : OccPoint) (hocc : cfg.occlusion = some pts)
    (happ : occApplicable az pts = some p) :
    elevation_check cfg az el
      = (decide (el < cfg.max_tilt) && decide (p.elevation < el)) := by
  unfold elevation_check
  rw [hocc]
  show (match occScan cfg.max_tilt az el pts with
        | some b => b
        | none => decide (cfg.min_tilt > el)) = _
  rw [occScan_applicable cfg.max_tilt az el pts p happ]

/-- Witness for C4 (amended) at the concrete profile of `cfgOcc4`. -/
theorem C4_occlusion_gate_witness :
    cfgOcc4.occlusion = some [OccPoint.mk 360 0]
    ∧ occApplicable 0 [OccPoint.mk 360 0] = some (OccPoint.mk 360 0)
    ∧ elevation_check cfgOcc4 0 5
        = (decide ((5 : ℚ) < cfgOcc4.max_tilt)
            && decide ((OccPoint.mk 360 0).elevation < 5)) :=
  ⟨by decide, by decide,
   C4_occlusion_gate cfgOcc4 [OccPoint.mk 360 0] 0 5 (OccPoint.mk 360 0)
     (by decide) (by decide)⟩

/-- C6 counterexample: with the occlusion profile of `cfgOcc6`, a camera
tilt exactly equal to the configured maximum tilt (45) fails the
pointing-angle gate (the occlusion branch uses a strict comparison),
contradicting the claim's unconditional inclusive-bounds statement. -/
theorem C6_counterexample :
    cfgOcc6.max_tilt = 45
    ∧ elevation_check cfgOcc6 0 45 = false := by decide

/-- C6 (amended): without an occlusion profile the pointing-angle gate is
the inclusive range check `min_tilt ≤ tilt ≤ max_tilt`, so tilt equal to
either bound passes; with an occlusion profile the bounds are strict. -/
theorem C6_no_occlusion_range (cfg : C2Config) (az el : ℚ)
    (h : cfg.occlusion = none) :
    elevation_check cfg az el
      = (decide (cfg.min_tilt ≤ el) && decide (el ≤ cfg.max_tilt)) := by
  unfold elevation_check
  rw [h]

/-- Witness for C6 (amended): under `cfgK` (no occlusion profile), tilt
exactly at the minimum and at the maximum passes the gate. -/
theorem C6_no_occlusion_range_witness :
    cfgK.occlusion = none
    ∧ elevation_check cfgK 0 cfgK.min_tilt = true
    ∧ elevation_check cfgK 0 cfgK.max_tilt = true := by
  refine ⟨rfl, ?_, ?_⟩
  · rw [C6_no_occlusion_range cfgK 0 cfgK.min_tilt rfl]; decide
  · rw [C6_no_occlusion_range cfgK 0 cfgK.max_tilt rfl]; decide

/-- C5 counterexample: the per-record columns appended to the annotated
batch contain exactly three gate flags (`tilt_fail`,
`min_altitude_fail`, `max_altitude_fail`), not four — the
distance-threshold gate is not retained as a per-record field. -/
theorem C5_counterexample :
    appendedColumns
      = ["age", "target", "selectable", "camera_pan", "camera_tilt",
         "distance_3d", "relative_distance"] ++ gateFlagColumns
    ∧ gateFlagColumns.length = 3
    ∧ gateFlagColumns.length ≠ 4 := by decide

/-- C9: when one message carries both an object ledger and an override
identifier, the ledger is processed first with the pre-existing override
state; the new override identifier is stored only afterwards and does
not influence this cycle's outputs. -/
theorem C9_override_applied_after_selection (ext : GeoExt) (cfg : C2Config)
    (now : ℚ) (s : C2State) (recs : List Record) (oid : String) :
    processMessage ext cfg now s ⟨some recs, some oid⟩
      = ({ (ledgerStep ext cfg now s recs).1 with override_object := some oid },
         (ledgerStep ext cfg now s recs).2)
    ∧ (processMessage ext cfg now s ⟨some recs, some oid⟩).2
      = (processMessage ext cfg now s ⟨some recs, none⟩).2 :=
  ⟨rfl, rfl⟩

/-- C10: a message whose object ledger holds zero records publishes
nothing — no selected-target message, not even an empty one, and no
annotated batch — and leaves the tracked-object state unchanged. -/
theorem C10_empty_batch_no_outputs (ext : GeoExt) (cfg : C2Config) (now : ℚ)
    (s : C2State) (ov : Option String) :
    (processMessage ext cfg now s ⟨some [], ov⟩).2 = []
    ∧ (processMessage ext cfg now s ⟨some [], ov⟩).1.tracked_object
        = s.tracked_object := by
  cases ov <;> exact ⟨rfl, rfl⟩

/-- C7: for a record carrying all required fields, the per-record
pipeline computes effective lead time as configured lead time plus
message age (evaluation time minus fix timestamp), applies it without
clamping — negative values included — and extrapolates the ENz relative
position linearly: position at fix plus
(speed·sin(track), speed·cos(track), vertical rate) times the effective
lead time; the pan/tilt/distance output is taken at that predicted
position. -/
theorem C7_lead_time_prediction (ext : GeoExt) (now lt : ℚ) (r : Record)
    (ts lat lon alt track speed vrate : ℚ)
    (h1 : r.get? "timestamp" = some ts) (h2 : r.get? "latitude" = some lat)
    (h3 : r.get? "longitude" = some lon) (h4 : r.get? "altitude" = some alt)
    (h5 : r.get? "track" = some track)
    (h6 : r.get? "horizontal_velocity" = some speed)
    (h7 : r.get? "vertical_velocity" = some vrate)
    (r0 : Vec3) (hgeo : ext.computeRENz lon lat alt = Except.ok r0)
    (out : ℚ × ℚ × ℚ)
    (hang : ext.anglesOf
        (predictENz r0 (velocityENz ext speed track vrate)
          (effectiveLeadTime lt now ts)) = Except.ok out) :
    calculateCameraAngles ext now lt r = out
    ∧ effectiveLeadTime lt now ts = lt + (now - ts)
    ∧ predictENz r0 (velocityENz ext speed track vrate)
          (effectiveLeadTime lt now ts)
        = (r0.1 + speed * ext.sinq (ext.rad track) * (lt + (now - ts)),
           r0.2.1 + speed * ext.cosq (ext.rad track) * (lt + (now - ts)),
           r0.2.2 + vrate * (lt + (now - ts))) := by
  have hall : r.hasAll requiredGeometryKeys = true := by
    simp [Record.hasAll, Record.hasKey, requiredGeometryKeys,
          h1, h2, h3, h4, h5, h6, h7]
  have htry : calcTry ext now lt r = Except.ok out := by
    unfold calcTry
    simp only [h1, h2, h3, h4, h5, h6, h7, Option.getD_some]
    rw [hgeo]
    exact hang
  refine ⟨?_, rfl, rfl⟩
  unfold calculateCameraAngles
  rw [hall]
  show (match calcTry ext now lt r with
        | Except.error _ => (0, 0, 0)
        | Except.ok out => out) = out
  rw [htry]

/-- Witness for C7: a record whose fix timestamp (105) lies in the
future of the evaluation time (100), giving a negative effective lead
time of −4 that is applied without clamping. -/
theorem C7_lead_time_prediction_witness :
    effectiveLeadTime 1 100 105 < 0
    ∧ calculateCameraAngles extK 100 1 rW7 = (-24, 0, 480) := by
  refine ⟨by decide, ?_⟩
  exact (C7_lead_time_prediction extK 100 1 rW7 105 1 0 500 3 2 5
    (by decide) (by decide) (by decide) (by decide) (by decide) (by decide)
    (by decide) (0, 0, 500) rfl (-24, 0, 480) (by rfl)).1

/-- C8 counterexample: for a single-record batch whose record is missing
`latitude`, the pointing computation does return the zero triple, but
the cycle is abandoned by the outer exception handler when the
relative-distance step reads the missing key: no selected-target message
and no annotated batch is published, so the cycle does abort,
contradicting the claim. -/
theorem C8_counterexample :
    calculateCameraAngles extK 100 1 rNoLat = (0, 0, 0)
    ∧ rNoLat.hasKey "latitude" = false
    ∧ ledgerStep extK cfgK 100 ⟨none, none⟩ [rNoLat]
        = (⟨none, none⟩, []) := by decide

/-- C8 (amended): a record missing any of the required geometry fields,
or whose wrapped pointing computation raises, yields the zero-triple
geometry `(0, 0, 0)`, and the annotation step never drops a record from
the batch; however, later batch-level accesses to a missing
`timestamp`/`latitude`/`longitude`/`altitude` raise a `KeyError` that
the outer handler catches, abandoning the cycle without publishing. -/
theorem C8_zero_triple (ext : GeoExt) (now lt : ℚ) (r : Record)
    (h : r.hasAll requiredGeometryKeys = false
       ∨ calcTry ext now lt r = Except.error ()) :
    calculateCameraAngles ext now lt r = (0, 0, 0)
    ∧ ∀ (cfg : C2Config) (recs : List Record) (ann : List AnnRecord),
        r ∈ recs → annotateBatch ext cfg now recs = some ann →
          ∃ a ∈ ann, a.record = r := by
  constructor
  · cases h with
    | inl hm => simp [calculateCameraAngles, hm]
    | inr hr =>
      unfold calculateCameraAngles
      by_cases hall : r.hasAll requiredGeometryKeys = true
      · rw [hall]
        show (match calcTry ext now lt r with
              | Except.error _ => (0, 0, 0)
              | Except.ok out => out) = (0, 0, 0)
        rw [hr]
      · simp [hall]
  · intro cfg recs ann hrm hann
    obtain ⟨a, ha, hfa⟩ := annotateBatch_mem_fwd ext cfg now recs ann r hann hrm
    exact ⟨a, ha, annotateRecord_record ext cfg now r a hfa⟩

/-- Witness for C8 (amended): `rW8` is missing `track` and the velocity
fields, gets zero-triple geometry, and still appears in the annotated
batch (its batch-level keys are present, so annotation succeeds). -/
theorem C8_zero_triple_witness :
    rW8.hasAll requiredGeometryKeys = false
    ∧ calculateCameraAngles extK 100 1 rW8 = (0, 0, 0)
    ∧ ∃ a ∈ (annotateBatch extK cfgK 100 [rW8]).getD [], a.record = rW8 := by
  have h := C8_zero_triple extK 100 1 rW8 (Or.inl (by decide))
  exact ⟨by decide, h.1, h.2 cfgK [rW8] _ (by decide) (by decide)⟩

theorem filter_eq_nil_of_forall {α : Type} (p : α → Bool) (l : List α)
    (h : ∀ a ∈ l, p a = false) : l.filter p = [] := by
  induction l with
  | nil => rfl
  | cons b bs ih =>
    have hb := h b (List.mem_cons_self b bs)
    simp only [List.filter_cons, hb, Bool.false_eq_true, if_false]
    exact ih (fun a ha => h a (List.mem_cons_of_mem b ha))

/-- C1: when the override identifier is active (truthy) and some record
of the batch carries it, the tracked object selected by the cycle is a
record with that identifier; no gate-flag hypothesis is needed — the
override branch never consults the gates. -/
theorem C1_override_precedence (ext : GeoExt) (cfg : C2Config) (now : ℚ)
    (s : C2State) (recs : List Record) (ann : List AnnRecord)
    (oid : String) (r0 : Record)
    (hov : s.override_object = some oid) (hne : oid ≠ "")
    (hr0 : r0 ∈ recs) (hid : r0.id = oid)
    (hann : annotateBatch ext cfg now recs = some ann) :
    ∃ t : AnnRecord,
      (ledgerStep ext cfg now s recs).1.tracked_object = some t
      ∧ t.record.id = oid := by
  have hrecs : recs ≠ [] := by
    intro hE
    rw [hE] at hr0
    exact absurd hr0 (List.not_mem_nil r0)
  rw [ledgerStep_state ext cfg now s recs ann hrecs hann]
  obtain ⟨a0, ha0, hfa0⟩ := annotateBatch_mem_fwd ext cfg now recs ann r0 hann hr0
  have ha0rec : a0.record = r0 := annotateRecord_record ext cfg now r0 a0 hfa0
  have htru : isTruthy s.override_object = true := by
    rw [hov]
    simp [isTruthy, hne]
  have ha0sel : a0 ∈ ann.filter (fun a => decide (a.record.id = oid)) :=
    List.mem_filter.mpr ⟨ha0, by rw [ha0rec, hid]; simp⟩
  unfold selectTarget
  split
  · simp only [hov, Option.getD_some]
    cases hsel : ann.filter (fun a => decide (a.record.id = oid)) with
    | nil => rw [hsel] at ha0sel; exact absurd ha0sel (List.not_mem_nil a0)
    | cons x xs =>
      refine ⟨_, rfl, ?_⟩
      have hmem := foldlMin_mem (fun a : AnnRecord => a.age) xs x
      rw [← hsel] at hmem
      exact of_decide_eq_true (List.mem_filter.mp hmem).2
  · rename_i hF
    exact absurd htru hF

/-- Witness for C1: override id `"B"` selects the record `"B"` even
though that record fails the minimum-altitude gate. -/
theorem C1_override_precedence_witness :
    (mkRec "B" 2 (-5)).id = "B"
    ∧ (annotateRecord extK cfgK 100 (mkRec "B" 2 (-5))).map
        (fun a => a.min_altitude_fail) = some true
    ∧ ∃ t, (ledgerStep extK cfgK 100 ⟨some "B", none⟩
          [mkRec "A" 1 500, mkRec "B" 2 (-5)]).1.tracked_object = some t
        ∧ t.record.id = "B" := by
  refine ⟨rfl, by decide, ?_⟩
  obtain ⟨ann, hann⟩ : ∃ ann,
      annotateBatch extK cfgK 100 [mkRec "A" 1 500, mkRec "B" 2 (-5)]
        = some ann := ⟨_, rfl⟩
  exact C1_override_precedence extK cfgK 100 ⟨some "B", none⟩
    [mkRec "A" 1 500, mkRec "B" 2 (-5)] ann "B" (mkRec "B" 2 (-5))
    rfl (by decide) (by decide) rfl hann

/-- C2 counterexample: with a stale override `"X"` and a batch whose only
record `"A"` passes every gate, the cycle clears the override and tracks
nothing, while standard selection on the very same batch (run from a
cleared state) would select a target — so standard gated selection does
not run within the same cycle, contradicting the claim. -/
theorem C2_counterexample :
    (ledgerStep extK cfgK 100 ⟨some "X", none⟩ [mkRec "A" 1 500]).1
      = ⟨none, none⟩
    ∧ (ledgerStep extK cfgK 100 ⟨none, none⟩
        [mkRec "A" 1 500]).1.tracked_object ≠ none := by decide

/-- C2 (amended): when the override identifier is set but absent from
the batch, the cycle clears both the override and the tracked object and
publishes an empty selection followed by the annotated ledger; standard
gated selection is deferred to the next batch. -/
theorem C2_override_absent_clears (ext : GeoExt) (cfg : C2Config) (now : ℚ)
    (s : C2State) (recs : List Record) (ann : List AnnRecord) (oid : String)
    (hov : s.override_object = some oid) (hne : oid ≠ "")
    (hrecs : recs ≠ [])
    (hann : annotateBatch ext cfg now recs = some ann)
    (habs : ∀ a ∈ ann, a.record.id ≠ oid) :
    (ledgerStep ext cfg now s recs).1 = ⟨none, none⟩
    ∧ (ledgerStep ext cfg now s recs).2
      = [C2Out.emptySelection, C2Out.annotatedLedger ann] := by
  have hfil : ann.filter (fun a => decide (a.record.id = oid)) = [] :=
    filter_eq_nil_of_forall _ ann
      (fun a ha => decide_eq_false (habs a ha))
  have hsel : selectTarget cfg s ann = ⟨none, none⟩ := by
    unfold selectTarget
    split
    · simp only [hov, Option.getD_some, hfil]
      rfl
    · rename_i hF
      exact absurd (by rw [hov]; simp [isTruthy, hne]) hF
  constructor
  · rw [ledgerStep_state ext cfg now s recs ann hrecs hann, hsel]
  · rw [ledgerStep_eq ext cfg now s recs ann hrecs hann, hsel]

/-- Witness for C2 (amended) at a concrete batch in which the override
id `"X"` matches no record. -/
theorem C2_override_absent_clears_witness :
    (∀ a ∈ (annotateBatch extK cfgK 100 [mkRec "A" 1 500]).getD [],
        a.record.id ≠ "X")
    ∧ (ledgerStep extK cfgK 100 ⟨some "X", none⟩ [mkRec "A" 1 500]).1
        = ⟨none, none⟩
    ∧ (ledgerStep extK cfgK 100 ⟨some "X", none⟩ [mkRec "A" 1 500]).2
        = [C2Out.emptySelection,
           C2Out.annotatedLedger
             ((annotateBatch extK cfgK 100 [mkRec "A" 1 500]).getD [])] := by
  refine ⟨by decide, ?_⟩
  exact C2_override_absent_clears extK cfgK 100 ⟨some "X", none⟩
    [mkRec "A" 1 500] _ "X" rfl (by decide) (by decide) rfl (by decide)

/-- C3: with no active override, a tracked object still present in the
eligible subset, and the candidate being the eligible record of minimal
ground distance, the next tracked object is the candidate exactly when
the relative distance improvement
`(distance(X) − distance(candidate)) / distance(X)` strictly exceeds the
configured improvement threshold, and otherwise remains the current
object's row. -/
theorem C3_distance_hysteresis (ext : GeoExt) (cfg : C2Config) (now : ℚ)
    (s : C2State) (recs : List Record) (ann : List AnnRecord)
    (tr c p : AnnRecord)
    (hov : isTruthy s.override_object = false)
    (htr : s.tracked_object = some tr)
    (hrecs : recs ≠ [])
    (hann : annotateBatch ext cfg now recs = some ann)
    (hp : pickMinBy (fun a => a.relative_distance) (eligibleOf cfg ann) = some p)
    (hc : ((eligibleOf cfg ann).filter
        (fun a => decide (a.record.id = tr.record.id))).head? = some c)
    (_hpos : 0 < c.relative_distance) :
    (ledgerStep ext cfg now s recs).1.tracked_object
      = some (if (c.relative_distance - p.relative_distance)
                  / c.relative_distance > cfg.distance_improvement_threshold
              then { p with target := true } else c) := by
  rw [ledgerStep_state ext cfg now s recs ann hrecs hann]
  unfold selectTarget
  split
  · rename_i hT
    rw [hov] at hT
    exact absurd hT (by simp)
  · simp only [hp, htr, hc]
    by_cases hgt : (c.relative_distance - p.relative_distance)
        / c.relative_distance > cfg.distance_improvement_threshold
    · rw [if_pos hgt, if_pos hgt]
    · rw [if_neg hgt, if_neg hgt]

/-- Witness for C3: tracked object `"B"` at ground distance 4, candidate
`"A"` at distance 1; the improvement 3/4 exceeds the threshold 1/10 and
selection switches to the candidate. -/
theorem C3_distance_hysteresis_witness :
    isTruthy (C2State.mk none (some trackedB)).override_object = false
    ∧ ∃ c p : AnnRecord,
        pickMinBy (fun a => a.relative_distance)
          (eligibleOf cfgK ((annotateBatch extK cfgK 100 recsW3).getD []))
          = some p
        ∧ ((eligibleOf cfgK ((annotateBatch extK cfgK 100 recsW3).getD [])).filter
            (fun a => decide (a.record.id = trackedB.record.id))).head? = some c
        ∧ 0 < c.relative_distance
        ∧ (c.relative_distance - p.relative_distance) / c.relative_distance
            > cfgK.distance_improvement_threshold
        ∧ (ledgerStep extK cfgK 100 ⟨none, some trackedB⟩ recsW3).1.tracked_object
            = some (if (c.relative_distance - p.relative_distance)
                        / c.relative_distance
                        > cfgK.distance_improvement_threshold
                    then { p with target := true } else c) := by
  refine ⟨rfl, _, _, rfl, rfl, by decide, by decide, ?_⟩
  exact C3_distance_hysteresis extK cfgK 100 ⟨none, some trackedB⟩ recsW3 _
    trackedB _ _ rfl rfl (by decide) rfl rfl rfl (by decide)

/-- C5 (amended): a completed cycle publishes the annotated batch with
one row per input record, each retaining `camera_pan`, `camera_tilt`,
`distance_3d`, `relative_distance`, `age` and the three gate flags
(`tilt_fail`, `min_altitude_fail`, `max_altitude_fail`) with the values
computed by the per-record pipeline; the distance-threshold gate is
applied only in the selection filter and not retained per record. -/
theorem C5_annotated_fields (ext : GeoExt) (cfg : C2Config) (now : ℚ)
    (s : C2State) (recs : List Record) (ann : List AnnRecord)
    (hrecs : recs ≠ [])
    (hann : annotateBatch ext cfg now recs = some ann)
    (hpl : ∀ r ∈ recs, r.hasAll payloadKeys = true) :
    C2Out.annotatedLedger ann ∈ (ledgerStep ext cfg now s recs).2
    ∧ ann.length = recs.length
    ∧ ∀ a ∈ ann,
        a.camera_pan = (calculateCameraAngles ext now cfg.lead_time a.record).1
      ∧ a.camera_tilt = (calculateCameraAngles ext now cfg.lead_time a.record).2.1
      ∧ a.distance_3d = (calculateCameraAngles ext now cfg.lead_time a.record).2.2
      ∧ a.relative_distance = relative_distance_meters ext cfg.earth_radius_km
          cfg.device_latitude cfg.device_longitude
          ((a.record.get? "latitude").getD 0) ((a.record.get? "longitude").getD 0)
      ∧ a.age = now - (a.record.get? "timestamp").getD 0
      ∧ a.tilt_fail = ! elevation_check cfg a.camera_pan a.camera_tilt
      ∧ a.min_altitude_fail
          = decide ((a.record.get? "altitude").getD 0 < cfg.min_altitude)
      ∧ a.max_altitude_fail
          = decide ((a.record.get? "altitude").getD 0 > cfg.max_altitude) := by
  refine ⟨?_, annotateBatch_length ext cfg now recs ann hann, ?_⟩
  · rw [ledgerStep_eq ext cfg now s recs ann hrecs hann]
    cases hts : (selectTarget cfg s ann).tracked_object with
    | none => simp
    | some t =>
      have hkeys : t.record.hasAll payloadKeys = true := by
        obtain ⟨a, ha, hrec⟩ := selectTarget_mem cfg s ann t hts
        obtain ⟨r, hr, hfr⟩ := annotateBatch_mem_rev ext cfg now recs ann a hann ha
        rw [hrec, annotateRecord_record ext cfg now r a hfr]
        exact hpl r hr
      simp [hkeys]
  · intro a ha
    obtain ⟨r, hr, hfr⟩ := annotateBatch_mem_rev ext cfg now recs ann a hann ha
    obtain ⟨hrec, hage, hpan, htilt, hd3, hrel, htf, hmin, hmax⟩ :=
      annotateRecord_spec ext cfg now r a hfr
    subst hrec
    exact ⟨hpan, htilt, hd3, hrel, hage, htf, hmin, hmax⟩

/-- Witness for C5 (amended) on the two-record batch `recsW3`. -/
theorem C5_annotated_fields_witness :
    (∀ r ∈ recsW3, r.hasAll payloadKeys = true)
    ∧ C2Out.annotatedLedger ((annotateBatch extK cfgK 100 recsW3).getD [])
        ∈ (ledgerStep extK cfgK 100 ⟨none, none⟩ recsW3).2
    ∧ ((annotateBatch extK cfgK 100 recsW3).getD []).length
        = recsW3.length := by
  have h := C5_annotated_fields extK cfgK 100 ⟨none, none⟩ recsW3 _
    (by decide) rfl (by decide)
  exact ⟨by decide, h.1, h.2.1⟩
